import Mathlib

/-!
Verification of the RNTupleTTreeChecker comparison engine.

This file gives a shallow embedding, in Lean 4, of the comparison logic of
the RNTuple/TTree checker (src/Checker.cxx and src/CheckerCLI.cxx) and proves
or refutes the specification claims about it.

Modelling conventions:
- C++ std::string is modelled by Lean String; string search primitives
  (std::string::find, regex matching of the shapes used by the code) are
  modelled by executable functions on List Char.
- A TTree is modelled as an ordered list of branches, each carrying its name,
  its leaf type name, its per-entry scalar values and its per-entry vector
  values.  An RNTuple is modelled as the ordered list of field descriptors
  enumerated by its descriptor, carrying the same data.  Numeric values are
  modelled by rationals.
- C++ loops "for i in 0 .. NFields-2" over the descriptor become structural
  recursion over fields.dropLast.
- std::unordered_map is modelled as an association list in insertion order;
  since the container gives no iteration-order guarantee, every place where
  the code iterates a whole unordered_map takes the traversal order as an
  explicit parameter (a function assumed to permute its input).
-/

namespace Checker

/-! ### String primitives -/

/-- Boolean prefix test on character lists. -/
def strStarts : List Char → List Char → Bool
  | [], _ => true
  | _ :: _, [] => false
  | p :: ps, s :: ss => p == s && strStarts ps ss

/-- Boolean substring test on character lists; models
std::string::find(needle) != npos. -/
def strHasSub (needle : List Char) : List Char → Bool
  | [] => strStarts needle []
  | s :: ss => strStarts needle (s :: ss) || strHasSub needle ss

/-- Substring test on strings. -/
def hasSub (needle hay : String) : Bool :=
  strHasSub needle.data hay.data

/-- Index of the first occurrence of a character, models std::string::find(c). -/
def findCharIdx (c : Char) : List Char → Option Nat
  | [] => none
  | x :: xs => if x == c then some 0 else (findCharIdx c xs).map (· + 1)

/-! ### Checker::ExtractSubFieldType (src/Checker.cxx lines 278-290)

The C++ takes start = vectorType.find of the character < and
end = vectorType.find of the character > (both FIRST occurrences), and when
both exist with start < end returns substr(start+1, end-start-1). -/

/-- Embedding of Checker::ExtractSubFieldType. -/
def ExtractSubFieldType (vectorType : String) : String :=
  match findCharIdx '<' vectorType.data, findCharIdx '>' vectorType.data with
  | some st, some en =>
    if st < en then String.mk ((vectorType.data.drop (st + 1)).take (en - st - 1)) else ""
  | some _, none => ""
  | none, _ => ""

/-! ### Data model

A TTree branch / RNTuple field carries its name, its native type string, its
per-entry scalar values (for the scalar Read functions) and its per-entry
vector values (for the vector Read functions and the subfield counters).
Numeric values are modelled by rationals. -/

structure TBranchData where
  name : String
  typeName : String
  scalars : List ℚ
  vecs : List (List ℚ)

structure TTreeData where
  branches : List TBranchData

structure RFieldData where
  name : String
  typeName : String
  scalars : List ℚ
  vecs : List (List ℚ)

structure RNTupleData where
  fields : List RFieldData

/-! ### Regex shapes used by the code

CountSubFieldsInRNTuple and the vector Read functions build the pattern
std::vector<.*T.*> and use std::regex_match (a FULL match).  A type string
fully matches that pattern exactly when it starts with "std::vector<", ends
with ">" (after the prefix), and the text strictly between contains T. -/

def svPre : List Char := "std::vector<".data

/-- Full-match test for the regex std::vector<.*T.*> built from subfield type
T, as used at src/Checker.cxx line 354 and in the vector Read functions. -/
def vecPatMatch (subT : String) (typeName : String) : Bool :=
  let t := typeName.data
  strStarts svPre t &&
    (let rest := t.drop svPre.length
     match rest.getLast? with
     | some ch => ch == '>' && strHasSub subT.data rest.dropLast
     | none => false)

/-- The cascade of subfield types the counting loop supports: the code checks
whether the subfield type string contains int, float, double or bool (in that
order); any of them leads to the same per-entry element-count summation. -/
def supportedSub (subT : String) : Bool :=
  hasSub "int" subT || hasSub "float" subT || hasSub "double" subT || hasSub "bool" subT

/-- Sum over every entry of the element count of the field named branchName:
models creating a vector view on that field with GetView and summing vec.size()
over all entries (0 if no field of that name exists). -/
def sumVecLens (branchName : String) (r : RNTupleData) : ℕ :=
  match r.fields.find? (fun f => f.name == branchName) with
  | some f => (f.vecs.map List.length).sum
  | none => 0

/-! ### Checker::CountSubFieldsInRNTuple (src/Checker.cxx lines 341-428)

The C++ iterates the field descriptors 0 .. NFields-2; inside the loop it
first breaks out if the BRANCH name contains "_0", then, if the CURRENT
field's type string fully matches std::vector<.*subT.*>, it sums the element
counts of the branchName field over all entries (via a view typed by whichever
of int/float/double/bool occurs in subT).  Note the summation reads the field
named branchName each time ANY field's type matches the pattern. -/

def countSubLoop (branchName subT : String) (r : RNTupleData) : List RFieldData → ℕ
  | [] => 0
  | f :: fs =>
    if hasSub "_0" branchName then 0
    else
      (if vecPatMatch subT f.typeName then
        (if supportedSub subT then sumVecLens branchName r else 0)
       else 0) + countSubLoop branchName subT r fs

/-- Embedding of Checker::CountSubFieldsInRNTuple. -/
def CountSubFieldsInRNTuple (branchName subT : String) (r : RNTupleData) : ℕ :=
  countSubLoop branchName subT r r.fields.dropLast

/-! ### Checker::CountSubFieldsInBranch (src/Checker.cxx lines 292-339)

Four identical cases for vector<int> / vector<float> / vector<double> /
vector<bool>, each summing vec.size() over all entries; any other type string
yields 0. -/

def CountSubFieldsInBranch (b : TBranchData) : ℕ :=
  if b.typeName == "vector<int>" || b.typeName == "vector<float>"
      || b.typeName == "vector<double>" || b.typeName == "vector<bool>" then
    (b.vecs.map List.length).sum
  else 0

/-! ### Checker::CompareSubFields (src/Checker.cxx lines 430-485)

For each TTree branch whose type string contains "vector" and whose name is
found among the RNTuple fields (FindFieldId searches the whole descriptor),
the code extracts the element type from the TTree type string and from the
RNTuple field's own type string, and reports
(branchName, [ttreeSub], [rntupleSub], CountSubFieldsInBranch,
 CountSubFieldsInRNTuple branchName rntupleSub). -/

def CompareSubFields (t : TTreeData) (r : RNTupleData) :
    List (String × List String × List String × ℕ × ℕ) :=
  t.branches.filterMap fun b =>
    if !hasSub "vector" b.typeName then none
    else
      match r.fields.find? (fun f => f.name == b.name) with
      | none => none
      | some f =>
        let rntupleSub := ExtractSubFieldType f.typeName
        some (b.name, [ExtractSubFieldType b.typeName], [rntupleSub],
          CountSubFieldsInBranch b,
          CountSubFieldsInRNTuple b.name rntupleSub r)

/-- The C1 claim, written from the spec words: the RNTuple-side total is the
sum of the per-entry element counts of the one matching vector field, counted
only when that field's full type string matches the vector-of-element-type
pattern for the element type extracted on the TTREE side, and 0 on a type
mismatch.  Compare with CompareSubFields, which is embedded from the source. -/
def CompareSubFieldsSpecC1 (t : TTreeData) (r : RNTupleData) :
    List (String × List String × List String × ℕ × ℕ) :=
  t.branches.filterMap fun b =>
    if !hasSub "vector" b.typeName then none
    else
      match r.fields.find? (fun f => f.name == b.name) with
      | none => none
      | some f =>
        some (b.name, [ExtractSubFieldType b.typeName], [ExtractSubFieldType f.typeName],
          CountSubFieldsInBranch b,
          if vecPatMatch (ExtractSubFieldType b.typeName) f.typeName
          then (f.vecs.map List.length).sum else 0)

/-- Concrete counterexample data for C1: one TTree vector branch x typed
vector<int> with a single entry of two elements, matched by name to an RNTuple
field x whose type is std::vector<float> (a type mismatch against the TTree
element type int). -/
def c1T : TTreeData := ⟨[⟨"x", "vector<int>", [], [[1, 2]]⟩]⟩

def c1R : RNTupleData :=
  ⟨[⟨"x", "std::vector<float>", [], [[1, 2]]⟩, ⟨"sentinel", "other", [], []⟩]⟩

/-! ### std::unordered_map model

The code stores the RNTuple fields in a std::unordered_map keyed by field
name.  We model the map as an association list: assignment m[k] = v
overwrites the value when the key is present and appends otherwise (so keys
stay unique and the list order is first-insertion order), lookup and erase
work by key.  An unordered_map promises NO iteration order; every loop that
iterates a whole map therefore takes the traversal order as an explicit
parameter, assumed only to permute the entries. -/

def lookupKey (k : String) : List (String × String) → Option String
  | [] => none
  | kv :: r => if kv.1 == k then some kv.2 else lookupKey k r

def eraseKey (k : String) : List (String × String) → List (String × String)
  | [] => []
  | kv :: r => if kv.1 == k then r else kv :: eraseKey k r

def mapAssign (k v : String) : List (String × String) → List (String × String)
  | [] => [(k, v)]
  | kv :: r => if kv.1 == k then (k, v) :: r else kv :: mapAssign k v r

/-- Collection loop shared by CompareFieldNames (value = field name, lines
184-195) and CompareFieldTypes (value = field type, lines 236-247): iterate
the field descriptors 0 .. NFields-2 front-to-back, skip fields named "_0",
and assign name ↦ value into the map (a first declaration keeps its position,
a later duplicate overwrites the value). -/
def buildMapL (val : RFieldData → String) (fields : List RFieldData) : List (String × String) :=
  fields.foldl (fun m f => if f.name == "_0" then m else mapAssign f.name (val f) m) []

/-! ### Checker::CompareFieldNames (src/Checker.cxx lines 172-223)

Phase 1 walks the TTree branches in declaration order; a branch found in the
map yields a matched pair and erases the entry, otherwise the pair
(branchName, "No match").  Phase 2 walks whatever is left of the map in the
container's (unspecified) iteration order, emitting ("No match", key). -/

def matchNamesLoop : List TBranchData → List (String × String) →
    List (String × String) × List (String × String)
  | [], m => ([], m)
  | b :: bs, m =>
    match lookupKey b.name m with
    | some v =>
      let rest := matchNamesLoop bs (eraseKey b.name m)
      ((b.name, v) :: rest.1, rest.2)
    | none =>
      let rest := matchNamesLoop bs m
      ((b.name, "No match") :: rest.1, rest.2)

/-- Embedding of Checker::CompareFieldNames; iter is the iteration order of
the leftover unordered_map (any permutation of its entries). -/
def CompareFieldNames (iter : List (String × String) → List (String × String))
    (t : TTreeData) (r : RNTupleData) : List (String × String) :=
  let res := matchNamesLoop t.branches (buildMapL (fun f => f.name) r.fields.dropLast)
  res.1 ++ (iter res.2).map fun kv => ("No match", kv.1)

/-! ### Checker::CompareFieldTypes (src/Checker.cxx lines 225-276)

Same two phases over a map name ↦ type; a matched branch yields
(name, ttreeType, rntupleType), an unmatched branch (name, ttreeType,
"No match"), and each leftover map entry (name, "No match", rntupleType). -/

def matchTypesLoop : List TBranchData → List (String × String) →
    List (String × String × String) × List (String × String)
  | [], m => ([], m)
  | b :: bs, m =>
    match lookupKey b.name m with
    | some ty =>
      let rest := matchTypesLoop bs (eraseKey b.name m)
      ((b.name, b.typeName, ty) :: rest.1, rest.2)
    | none =>
      let rest := matchTypesLoop bs m
      ((b.name, b.typeName, "No match") :: rest.1, rest.2)

/-- Embedding of Checker::CompareFieldTypes; iter is the iteration order of
the leftover unordered_map (any permutation of its entries). -/
def CompareFieldTypes (iter : List (String × String) → List (String × String))
    (t : TTreeData) (r : RNTupleData) : List (String × String × String) :=
  let res := matchTypesLoop t.branches (buildMapL (fun f => f.typeName) r.fields.dropLast)
  res.1 ++ (iter res.2).map fun kv => (kv.1, "No match", kv.2)

/-! ### Scalar Read functions on the RNTuple side
(src/Checker.cxx lines 628-770)

All four iterate the field descriptors 0 .. NFields-2 and append, per
selected field, that field's value at every entry.  ReadIntFromRNTuple selects
a field when its type string CONTAINS "int" (find != npos, line 646);
ReadFloatFromRNTuple, ReadDoubleFromRNTuple and ReadBoolFromRNTuple select a
field only when its type string EQUALS "float" / "double" / "bool"
(lines 682, 718, 754). -/

def readIntLoop : List RFieldData → List ℚ
  | [] => []
  | f :: fs => (if hasSub "int" f.typeName then f.scalars else []) ++ readIntLoop fs

def ReadIntFromRNTuple (r : RNTupleData) : List ℚ :=
  readIntLoop r.fields.dropLast

def readFloatLoop : List RFieldData → List ℚ
  | [] => []
  | f :: fs => (if f.typeName == "float" then f.scalars else []) ++ readFloatLoop fs

def ReadFloatFromRNTuple (r : RNTupleData) : List ℚ :=
  readFloatLoop r.fields.dropLast

def readDoubleLoop : List RFieldData → List ℚ
  | [] => []
  | f :: fs => (if f.typeName == "double" then f.scalars else []) ++ readDoubleLoop fs

def ReadDoubleFromRNTuple (r : RNTupleData) : List ℚ :=
  readDoubleLoop r.fields.dropLast

def readBoolLoop : List RFieldData → List ℚ
  | [] => []
  | f :: fs => (if f.typeName == "bool" then f.scalars else []) ++ readBoolLoop fs

def ReadBoolFromRNTuple (r : RNTupleData) : List ℚ :=
  readBoolLoop r.fields.dropLast

/-! ### Vector Read functions on the RNTuple side
(src/Checker.cxx lines 936-1111)

Same 0 .. NFields-2 iteration; int/float/double select by full regex match of
std::vector<.*T.*> and append the concatenation of the field's per-entry
vectors; bool matches the regex std::vector<bool>, i.e. that exact string. -/

def readIntVecLoop : List RFieldData → List ℚ
  | [] => []
  | f :: fs => (if vecPatMatch "int" f.typeName then f.vecs.flatten else []) ++ readIntVecLoop fs

def ReadIntVectorFromRNTuple (r : RNTupleData) : List ℚ :=
  readIntVecLoop r.fields.dropLast

def readFloatVecLoop : List RFieldData → List ℚ
  | [] => []
  | f :: fs => (if vecPatMatch "float" f.typeName then f.vecs.flatten else []) ++ readFloatVecLoop fs

def ReadFloatVectorFromRNTuple (r : RNTupleData) : List ℚ :=
  readFloatVecLoop r.fields.dropLast

def readDoubleVecLoop : List RFieldData → List ℚ
  | [] => []
  | f :: fs =>
    (if vecPatMatch "double" f.typeName then f.vecs.flatten else []) ++ readDoubleVecLoop fs

def ReadDoubleVectorFromRNTuple (r : RNTupleData) : List ℚ :=
  readDoubleVecLoop r.fields.dropLast

def readBoolVecLoop : List RFieldData → List ℚ
  | [] => []
  | f :: fs =>
    (if f.typeName == "std::vector<bool>" then f.vecs.flatten else []) ++ readBoolVecLoop fs

def ReadBoolVectorFromRNTuple (r : RNTupleData) : List ℚ :=
  readBoolVecLoop r.fields.dropLast

/-! ### Concrete data for the C4 counterexample -/

def c4T : TTreeData := ⟨[]⟩

def c4R : RNTupleData :=
  ⟨[⟨"a", "int", [], []⟩, ⟨"b", "int", [], []⟩, ⟨"zzz", "other", [], []⟩]⟩

/-! ### CheckerCLI: histogram binning (src/CheckerCLI.cxx)

HistTTree (lines 492-577) and HistRNTuple (lines 579-665) construct, for each
nonempty scalar data set, a histogram with 100 bins spanning that side's OWN
min and max (min_element / max_element of the one vector passed in); the bool
histograms use the fixed binning 2 bins over 0..2 on both sides.
IntHist_ChiSquareComparison (lines 445-490) instead derives one binning from
the joint min and max of BOTH vectors.  A binning is modelled as the triple
(min, max, binCount), and none when the data is empty (the code skips the
histogram entirely then). -/

def HistTTreeIntBinning : List ℤ → Option (ℤ × ℤ × ℕ)
  | [] => none
  | x :: xs => some (xs.foldl min x, xs.foldl max x, 100)

def HistRNTupleIntBinning : List ℤ → Option (ℤ × ℤ × ℕ)
  | [] => none
  | x :: xs => some (xs.foldl min x, xs.foldl max x, 100)

def HistTTreeBoolBinning : ℤ × ℤ × ℕ := (0, 2, 2)

def HistRNTupleBoolBinning : ℤ × ℤ × ℕ := (0, 2, 2)

def IntHistChiSquareBinning : List ℤ → List ℤ → Option (ℤ × ℤ × ℕ)
  | [], _ => none
  | _, [] => none
  | x :: xs, y :: ys =>
    some (min (xs.foldl min x) (ys.foldl min y),
          max (xs.foldl max x) (ys.foldl max y), 100)

/-- min_element of a nonempty list (0 on the empty list, never reached by the
guarded callers). -/
def lminD : List ℤ → ℤ
  | [] => 0
  | x :: xs => xs.foldl min x

/-- max_element of a nonempty list (0 on the empty list, never reached by the
guarded callers). -/
def lmaxD : List ℤ → ℤ
  | [] => 0
  | x :: xs => xs.foldl max x

/-! ### CheckerCLI: histogram statistics (claim C8)

HistTTree and HistRNTuple return one (count, mean, stddev) triple per scalar
logical type, in the order int, float, double, bool.  For an EMPTY data
vector the code pushes the literal triple (0, 0.0, 0.0) without touching any
histogram.  For nonempty data the triple comes from the filled ROOT
histogram; the model idealises those statistics as exact count, mean and
variance over the values (the third slot carries the stddev SQUARED — the
square root of an exact 0 is 0, so zero-ness of the modelled slot and of the
code's stddev agree, which is all claim C8 needs). -/

def histStat (data : List ℚ) : ℕ × ℚ × ℚ :=
  if data.isEmpty then (0, 0, 0)
  else (data.length, data.sum / (data.length : ℚ),
        (data.map fun v => v * v).sum / (data.length : ℚ)
          - (data.sum / (data.length : ℚ)) ^ 2)

def HistTTree (intData floatData doubleData boolData : List ℚ) : List (ℕ × ℚ × ℚ) :=
  [histStat intData, histStat floatData, histStat doubleData, histStat boolData]

def HistRNTuple (intData floatData doubleData boolData : List ℚ) : List (ℕ × ℚ × ℚ) :=
  [histStat intData, histStat floatData, histStat doubleData, histStat boolData]

/-! ### CheckerCLI: the type map and the per-pair flags of
PrintFieldTypeComparison (src/CheckerCLI.cxx lines 230-358)

typeMap maps the accepted native spellings to canonical names and anything
else to "Missing"; yellowMap pairs the float/double spellings (operator
square-bracket on a missing key default-constructs the empty string).  The
printing loop classifies each tuple, but the missingType flag is declared
OUTSIDE the loop and never reset: once any pair has an unmappable side, the
flag stays true and the mismatch/near-match check (which requires the flag to
be false) is skipped for every later pair. -/

def mappedType (s : String) : String :=
  if s == "Int_t" || s == "std::int32_t" then "int"
  else if s == "Float_t" || s == "float" then "float"
  else if s == "Double_t" || s == "double" then "double"
  else if s == "Bool_t" || s == "bool" then "bool"
  else if s == "std::vector<std::int32_t>" || s == "std::vector<int>"
      || s == "vector<int>" then "vector<int>"
  else if s == "std::vector<float>" || s == "vector<float>" then "vector<float>"
  else if s == "std::vector<double>" || s == "vector<double>" then "vector<double>"
  else if s == "std::vector<bool>" || s == "vector<bool>" then "vector<bool>"
  else "Missing"

def yellowMap (s : String) : String :=
  if s == "Float_t" then "double"
  else if s == "float" then "double"
  else if s == "Double_t" then "float"
  else if s == "double" then "float"
  else if s == "std::vector<float>" then "vector<double>"
  else if s == "std::vector<double>" then "vector<float>"
  else if s == "vector<float>" then "vector<double>"
  else if s == "vector<double>" then "vector<float>"
  else ""

/-- The four flags a pair of the field-type table can visibly carry: a
"Missing" mapped type on either side, the yellow "no exact match" banner, the
red "type mismatch" banner, or no banner at all. -/
inductive PairFlag where
  | missingFlag
  | nearFlag
  | mismatchFlag
  | noFlag
deriving DecidableEq

/-- One iteration of the printing loop of PrintFieldTypeComparison: the input
Bool is the sticky missingType flag, the output carries the flag printed for
this pair and the updated sticky flag.  The second disjunct of the yellow
check reproduces the code verbatim (line 328 compares ttreeTypeMapped with
yellowMap of ITSELF, not of the other side). -/
def classifyStep (sticky : Bool) (ttreeType rntupType : String) : PairFlag × Bool :=
  let tm := mappedType ttreeType
  let rm := mappedType rntupType
  let sticky' := sticky || tm == "Missing" || rm == "Missing"
  if tm == "Missing" || rm == "Missing" then (PairFlag.missingFlag, sticky')
  else if !sticky' && tm != rm then
    (if yellowMap tm == rm || tm == yellowMap tm then PairFlag.nearFlag
     else PairFlag.mismatchFlag, sticky')
  else (PairFlag.noFlag, sticky')

def classifyLoop (sticky : Bool) : List (String × String × String) → List PairFlag
  | [] => []
  | tr :: rest =>
    (classifyStep sticky tr.2.1 tr.2.2).1 ::
      classifyLoop (classifyStep sticky tr.2.1 tr.2.2).2 rest

/-- The sequence of per-pair flags printed by PrintFieldTypeComparison's main
loop (missingType starts false). -/
def PrintFieldTypeClasses (l : List (String × String × String)) : List PairFlag :=
  classifyLoop false l

/-- The C5 claim's per-pair classification, written from the spec words:
Missing if either side fails to map, Exact (no flag) if the mapped types are
equal, NearMatch if they differ only as float versus double (scalar or
vector-of), Mismatch otherwise — independently of every other pair. -/
def specClassifyPair (tt rt : String) : PairFlag :=
  let tm := mappedType tt
  let rm := mappedType rt
  if tm == "Missing" || rm == "Missing" then PairFlag.missingFlag
  else if tm == rm then PairFlag.noFlag
  else if (tm == "float" && rm == "double") || (tm == "double" && rm == "float")
      || (tm == "vector<float>" && rm == "vector<double>")
      || (tm == "vector<double>" && rm == "vector<float>") then PairFlag.nearFlag
  else PairFlag.mismatchFlag

/-- The sticky missingType flag after the printing loop has consumed l. -/
def stickyAfter (s : Bool) : List (String × String × String) → Bool
  | [] => s
  | tr :: rest => stickyAfter (classifyStep s tr.2.1 tr.2.2).2 rest

/-! ### CheckerCLI: which comparison sections print (claim C6)

Each Print function of CheckerCLI first decides whether to produce any output.
We model that decision as a Bool (true when the section is printed):
- PrintEntryComparison (lines 107-139) and PrintFieldComparison (141-172)
  return early when not verbose and the two counts agree;
- PrintFieldNameComparison (174-227) returns early when not verbose and
  every pair has equal components;
- PrintFieldTypeComparison (230-358) first scans the tuples computing
  diffLevel (overwritten by each differing non-missing pair, near match = 1,
  mismatch = 2, with the same sticky missingType flag) and returns early when
  not verbose and diffLevel stayed 0;
- HistogramDrawStat (667-764) returns early whenever verbose is OFF —
  regardless of the data, so a histogram-statistics discrepancy prints
  nothing without the verbose flag. -/

def PrintEntryComparison (verbose : Bool) (entries : ℤ × ℤ) : Bool :=
  if !verbose && entries.1 == entries.2 then false else true

def PrintFieldComparison (verbose : Bool) (fields : ℤ × ℤ) : Bool :=
  if !verbose && fields.1 == fields.2 then false else true

def PrintFieldNameComparison (verbose : Bool) (fieldNames : List (String × String)) : Bool :=
  if !verbose && fieldNames.all (fun p => p.1 == p.2) then false else true

/-- One iteration of the scanning loop at the top of PrintFieldTypeComparison
(lines 271-290; this first loop uses the correct symmetric yellow check). -/
def scanStep (st : ℕ × Bool) (tt rt : String) : ℕ × Bool :=
  let tm := mappedType tt
  let rm := mappedType rt
  let missingNow := st.2 || tm == "Missing" || rm == "Missing"
  if !missingNow && tm != rm then
    (if yellowMap tm == rm || tm == yellowMap rm then 1 else 2, missingNow)
  else (st.1, missingNow)

def scanFieldTypes (l : List (String × String × String)) : ℕ × Bool :=
  l.foldl (fun st tr => scanStep st tr.2.1 tr.2.2) (0, false)

def PrintFieldTypeComparison (verbose : Bool) (l : List (String × String × String)) : Bool :=
  if !verbose && (scanFieldTypes l).1 == 0 then false else true

def HistogramDrawStat (verbose : Bool)
    (_dataT _dataR : List (ℕ × ℚ × ℚ)) : Bool :=
  if !verbose then false else true

/-! helper lemmas about findCharIdx -/

theorem findCharIdx_append_of_not_mem (c : Char) (a l : List Char) (h : c ∉ a) :
    findCharIdx c (a ++ l) = (findCharIdx c l).map (· + a.length) := by
  induction a with
  | nil =>
    cases h' : findCharIdx c l <;> simp [h']
  | cons x xs ih =>
    have hx : (x == c) = false := by
      simp only [List.mem_cons] at h
      simp [beq_iff_eq]
      intro he; exact h (Or.inl he.symm)
    have hxs : c ∉ xs := fun hc => h (List.mem_cons_of_mem _ hc)
    cases h' : findCharIdx c l with
    | none =>
      simp [findCharIdx, hx, ih hxs, h']
    | some k =>
      simp [findCharIdx, hx, ih hxs, h']
      omega

theorem findCharIdx_of_not_mem (c : Char) (l : List Char) (h : c ∉ l) :
    findCharIdx c l = none := by
  induction l with
  | nil => rfl
  | cons x xs ih =>
    have hx : (x == c) = false := by
      simp only [List.mem_cons] at h
      simp [beq_iff_eq]
      intro he; exact h (Or.inl he.symm)
    have hxs : c ∉ xs := fun hc => h (List.mem_cons_of_mem _ hc)
    simp [findCharIdx, hx, ih hxs]

theorem findCharIdx_cons_self (c : Char) (l : List Char) :
    findCharIdx c (c :: l) = some 0 := by
  simp [findCharIdx]

/-- C2 (counterexample): the claim says ExtractSubFieldType takes the text up
to the LAST matching closing bracket, so that "vector<vector<int>>" yields
"vector<int>".  The code takes the FIRST closing bracket: the result on
"vector<vector<int>>" is the truncated token "vector<int", not "vector<int>". -/
theorem c2_counterexample :
    ExtractSubFieldType "vector<vector<int>>" = "vector<int" ∧
    ExtractSubFieldType "vector<vector<int>>" ≠ "vector<int>" := by
  constructor <;> decide

/-- C2 (amended): for every type string of the form a ++ < ++ b ++ > ++ c where
a contains no angle bracket and b contains no closing bracket,
ExtractSubFieldType returns exactly b, i.e. the text between the first opening
bracket and the FIRST (not last) closing bracket; and whenever the string lacks
an opening or a closing bracket the result is the empty string. -/
theorem c2_extract_between_first_brackets
    (a b c : List Char) (s : String)
    (h1 : '<' ∉ a) (h2 : '>' ∉ a) (h3 : '>' ∉ b)
    (h4 : '<' ∉ s.data ∨ '>' ∉ s.data) :
    ExtractSubFieldType (String.mk (a ++ '<' :: (b ++ '>' :: c))) = String.mk b ∧
    ExtractSubFieldType s = "" := by
  constructor
  · have hlt : findCharIdx '<' (a ++ '<' :: (b ++ '>' :: c)) = some a.length := by
      rw [findCharIdx_append_of_not_mem _ _ _ h1, findCharIdx_cons_self]
      simp
    have hgtInner : findCharIdx '>' (b ++ '>' :: c) = some b.length := by
      rw [findCharIdx_append_of_not_mem _ _ _ h3, findCharIdx_cons_self]
      simp
    have hgt : findCharIdx '>' (a ++ '<' :: (b ++ '>' :: c))
        = some (a.length + b.length + 1) := by
      rw [findCharIdx_append_of_not_mem _ _ _ h2]
      have hne : ('<' == '>') = false := by decide
      simp [findCharIdx, hne, hgtInner]
      omega
    have hdata : (String.mk (a ++ '<' :: (b ++ '>' :: c))).data
        = a ++ '<' :: (b ++ '>' :: c) := rfl
    unfold ExtractSubFieldType
    rw [hdata, hlt, hgt]
    dsimp only
    have hcond : a.length < a.length + b.length + 1 := by omega
    rw [if_pos hcond]
    have hdrop : (a ++ '<' :: (b ++ '>' :: c)).drop (a.length + 1) = b ++ '>' :: c := by
      have hsplit : a ++ '<' :: (b ++ '>' :: c) = (a ++ ['<']) ++ (b ++ '>' :: c) := by
        simp
      rw [hsplit]
      have hlen : a.length + 1 = (a ++ ['<']).length := by simp
      rw [hlen, List.drop_left]
    have harith : a.length + b.length + 1 - a.length - 1 = b.length := by omega
    rw [hdrop, harith]
    have htake : (b ++ '>' :: c).take b.length = b := by
      have hlen : b.length = b.length + 0 := by omega
      exact List.take_left b ('>' :: c)
    rw [htake]
  · cases h4 with
    | inl h =>
      unfold ExtractSubFieldType
      rw [findCharIdx_of_not_mem _ _ h]
    | inr h =>
      unfold ExtractSubFieldType
      rw [findCharIdx_of_not_mem _ _ h]
      cases findCharIdx '<' s.data <;> rfl

/-- C2 witness: the amended theorem applied at the concrete input
"vector<int>" (hence a = "vector", b = "int", c empty) and at the
bracket-free string "float". -/
theorem c2_extract_between_first_brackets_witness :
    ExtractSubFieldType (String.mk ("vector".data ++ '<' :: ("int".data ++ '>' :: []))) =
      String.mk "int".data ∧
    ExtractSubFieldType "float" = "" :=
  c2_extract_between_first_brackets "vector".data "int".data [] "float"
    (by decide) (by decide) (by decide) (Or.inl (by decide))

/-- C1 (counterexample): on a TTree branch x of type vector<int> matched to an
RNTuple field x of type std::vector<float>, the claim says the RNTuple-side
total is 0 (type mismatch against the TTree-extracted element type int), but
the code builds its pattern from the element type extracted on the RNTUPLE
side (float), matches the field, and reports 2. -/
theorem c1_counterexample :
    CompareSubFields c1T c1R = [("x", ["int"], ["float"], 2, 2)] ∧
    CompareSubFieldsSpecC1 c1T c1R = [("x", ["int"], ["float"], 2, 0)] ∧
    CompareSubFields c1T c1R ≠ CompareSubFieldsSpecC1 c1T c1R := by
  refine ⟨by decide, by decide, by decide⟩

/-- Closed form of the counting loop: once the branch name contains "_0" the
loop breaks with 0; otherwise EVERY field whose type string matches the
pattern contributes one full copy of the element-count sum of the branchName
field (when the subfield type contains int/float/double/bool; else 0). -/
theorem countSubLoop_eq (branchName subT : String) (r : RNTupleData)
    (l : List RFieldData) :
    countSubLoop branchName subT r l =
      if hasSub "_0" branchName then 0
      else (l.countP fun f => vecPatMatch subT f.typeName) *
        (if supportedSub subT then sumVecLens branchName r else 0) := by
  induction l with
  | nil => simp [countSubLoop]
  | cons f fs ih =>
    by_cases h0 : hasSub "_0" branchName
    · simp [countSubLoop, h0]
    · by_cases hm : vecPatMatch subT f.typeName
      · by_cases hs : supportedSub subT
        · simp [countSubLoop, h0, hm, hs, ih, List.countP_cons]
          ring
        · simp [countSubLoop, h0, hm, hs, ih, List.countP_cons]
      · simp [countSubLoop, h0, hm, ih, List.countP_cons]

/-- C1 (amended): every tuple reported by CompareSubFields carries, as its
RNTuple-side element type, the type extracted from the matched RNTuple field's
OWN type string, and as its RNTuple-side total the value of
CountSubFieldsInRNTuple on that type, which equals: 0 when the branch name
contains "_0", and otherwise the number of non-final fields whose type string
matches std::vector<.*E.*> (E the RNTuple-extracted element type) times the
summed element count of the named field (when E contains int, float, double or
bool; else 0) — each type-matching field contributes a full copy of the count,
rather than only the one matching field being counted once. -/
theorem c1_rntuple_side_total (t : TTreeData) (r : RNTupleData)
    (e : String × List String × List String × ℕ × ℕ)
    (he : e ∈ CompareSubFields t r) :
    (r.fields.find? (fun g => g.name == e.1)).map
        (fun g => ExtractSubFieldType g.typeName) = some e.2.2.1.headI ∧
    e.2.2.1.length = 1 ∧
    e.2.2.2.2 =
      (if hasSub "_0" e.1 then 0
       else (r.fields.dropLast.countP fun g => vecPatMatch e.2.2.1.headI g.typeName) *
         (if supportedSub e.2.2.1.headI then sumVecLens e.1 r else 0)) := by
  rw [CompareSubFields, List.mem_filterMap] at he
  obtain ⟨b, _hb, heq⟩ := he
  by_cases hv : hasSub "vector" b.typeName
  · simp only [hv, Bool.not_true, Bool.false_eq_true, if_false] at heq
    cases hf : r.fields.find? (fun f => f.name == b.name) with
    | none => rw [hf] at heq; simp at heq
    | some f =>
      rw [hf] at heq
      simp only [Option.some.injEq] at heq
      subst heq
      refine ⟨?_, rfl, ?_⟩
      · rw [hf]; rfl
      · simpa [CountSubFieldsInRNTuple] using
          countSubLoop_eq b.name (ExtractSubFieldType f.typeName) r r.fields.dropLast
  · simp [hv] at heq

/-- C1 witness: the amended theorem applied to the concrete comparison of c1T
against c1R, at its single reported tuple. -/
theorem c1_rntuple_side_total_witness :
    (c1R.fields.find? (fun g => g.name == "x")).map
        (fun g => ExtractSubFieldType g.typeName) = some (["float"] : List String).headI ∧
    (["float"] : List String).length = 1 ∧
    (2 : ℕ) =
      (if hasSub "_0" "x" then 0
       else (c1R.fields.dropLast.countP fun g =>
           vecPatMatch (["float"] : List String).headI g.typeName) *
         (if supportedSub (["float"] : List String).headI then sumVecLens "x" c1R else 0)) :=
  c1_rntuple_side_total c1T c1R ("x", ["int"], ["float"], 2, 2) (by decide)

/-! ### Association-list map lemmas -/

theorem lookupKey_mem (k : String) (m : List (String × String)) (v : String)
    (h : lookupKey k m = some v) : (k, v) ∈ m := by
  induction m with
  | nil => simp [lookupKey] at h
  | cons kv r ih =>
    rw [lookupKey] at h
    by_cases hk : kv.1 = k
    · simp only [hk, beq_self_eq_true, if_true, Option.some.injEq] at h
      obtain ⟨k1, v1⟩ := kv
      simp only at hk h
      subst hk h
      exact List.mem_cons_self _ _
    · rw [if_neg (by simpa using hk)] at h
      exact List.mem_cons_of_mem _ (ih h)

theorem eraseKey_subset (k : String) (m : List (String × String)) (kv : String × String)
    (h : kv ∈ eraseKey k m) : kv ∈ m := by
  induction m with
  | nil => simp [eraseKey] at h
  | cons kv' r ih =>
    rw [eraseKey] at h
    by_cases hk : kv'.1 = k
    · rw [if_pos (by simpa using hk)] at h
      exact List.mem_cons_of_mem _ h
    · rw [if_neg (by simpa using hk)] at h
      rcases List.mem_cons.mp h with h' | h'
      · exact h' ▸ List.mem_cons_self _ _
      · exact List.mem_cons_of_mem _ (ih h')

theorem eraseKey_countP_ne (k n : String) (hkn : k ≠ n) (m : List (String × String)) :
    (eraseKey k m).countP (fun kv => kv.1 == n) = m.countP (fun kv => kv.1 == n) := by
  induction m with
  | nil => rfl
  | cons kv r ih =>
    rw [eraseKey]
    by_cases hk : kv.1 = k
    · rw [if_pos (by simpa using hk)]
      have hkvn : (kv.1 == n) = false := by simp [hk, hkn]
      simp [List.countP_cons, hkvn]
    · rw [if_neg (by simpa using hk)]
      simp [List.countP_cons, ih]

theorem eraseKey_countP_self (k : String) (m : List (String × String)) (v : String)
    (h : lookupKey k m = some v) :
    (eraseKey k m).countP (fun kv => kv.1 == k) + 1 = m.countP (fun kv => kv.1 == k) := by
  induction m with
  | nil => simp [lookupKey] at h
  | cons kv r ih =>
    rw [lookupKey] at h
    rw [eraseKey]
    by_cases hk : kv.1 = k
    · rw [if_pos (by simpa using hk)]
      have hkvk : (kv.1 == k) = true := by simpa using hk
      simp [List.countP_cons, hkvk]
    · rw [if_neg (by simpa using hk)] at h ⊢
      have hkvk : (kv.1 == k) = false := by simpa using hk
      simp [List.countP_cons, hkvk, ih h]

theorem mapAssign_mem (k v : String) (m : List (String × String)) (kv : String × String)
    (h : kv ∈ mapAssign k v m) : kv = (k, v) ∨ kv ∈ m := by
  induction m with
  | nil => simpa [mapAssign] using h
  | cons kv' r ih =>
    rw [mapAssign] at h
    by_cases hk : kv'.1 = k
    · rw [if_pos (by simpa using hk)] at h
      rcases List.mem_cons.mp h with h' | h'
      · exact Or.inl h'
      · exact Or.inr (List.mem_cons_of_mem _ h')
    · rw [if_neg (by simpa using hk)] at h
      rcases List.mem_cons.mp h with h' | h'
      · exact Or.inr (h' ▸ List.mem_cons_self _ _)
      · rcases ih h' with h'' | h''
        · exact Or.inl h''
        · exact Or.inr (List.mem_cons_of_mem _ h'')

theorem mapAssign_keys (k v : String) (m : List (String × String)) (x : String)
    (h : x ∈ (mapAssign k v m).map Prod.fst) : x = k ∨ x ∈ m.map Prod.fst := by
  rw [List.mem_map] at h
  obtain ⟨kv, hkv, hx⟩ := h
  rcases mapAssign_mem k v m kv hkv with h' | h'
  · left; rw [← hx, h']
  · right; rw [List.mem_map]; exact ⟨kv, h', hx⟩

theorem mapAssign_keys_nodup (k v : String) (m : List (String × String))
    (h : (m.map Prod.fst).Nodup) : ((mapAssign k v m).map Prod.fst).Nodup := by
  induction m with
  | nil => simp [mapAssign]
  | cons kv r ih =>
    rw [mapAssign]
    rw [List.map_cons, List.nodup_cons] at h
    by_cases hk : kv.1 = k
    · rw [if_pos (by simpa using hk)]
      rw [List.map_cons, List.nodup_cons]
      exact ⟨hk ▸ h.1, h.2⟩
    · rw [if_neg (by simpa using hk)]
      rw [List.map_cons, List.nodup_cons]
      refine ⟨fun hc => ?_, ih h.2⟩
      rcases mapAssign_keys k v r kv.1 hc with h' | h'
      · exact hk h'
      · exact h.1 h'

/-- Every entry of buildMapL comes from some non-sentinel field of the input
list: its key is that field's name and its value is val of that field. -/
theorem buildMapL_mem (val : RFieldData → String) (fields : List RFieldData)
    (kv : String × String) (h : kv ∈ buildMapL val fields) :
    ∃ f ∈ fields, kv = (f.name, val f) := by
  suffices haux : ∀ (fs : List RFieldData) (m : List (String × String)),
      kv ∈ fs.foldl (fun m f => if f.name == "_0" then m else mapAssign f.name (val f) m) m →
      kv ∈ m ∨ ∃ f ∈ fs, kv = (f.name, val f) by
    rcases haux fields [] h with h' | h'
    · simp at h'
    · exact h'
  intro fs
  induction fs with
  | nil => intro m hm; exact Or.inl hm
  | cons f fs ih =>
    intro m hm
    rw [List.foldl_cons] at hm
    by_cases h0 : f.name == "_0"
    · simp only [h0, if_true] at hm
      rcases ih m hm with h' | ⟨g, hg, hkv⟩
      · exact Or.inl h'
      · exact Or.inr ⟨g, List.mem_cons_of_mem _ hg, hkv⟩
    · simp only [h0, if_false] at hm
      rcases ih _ hm with h' | ⟨g, hg, hkv⟩
      · rcases mapAssign_mem _ _ _ _ h' with h'' | h''
        · exact Or.inr ⟨f, List.mem_cons_self _ _, h''⟩
        · exact Or.inl h''
      · exact Or.inr ⟨g, List.mem_cons_of_mem _ hg, hkv⟩

/-- The keys of buildMapL are pairwise distinct. -/
theorem buildMapL_keys_nodup (val : RFieldData → String) (fields : List RFieldData) :
    ((buildMapL val fields).map Prod.fst).Nodup := by
  suffices haux : ∀ (fs : List RFieldData) (m : List (String × String)),
      (m.map Prod.fst).Nodup →
      ((fs.foldl (fun m f => if f.name == "_0" then m else mapAssign f.name (val f) m) m).map
        Prod.fst).Nodup by
    exact haux fields [] (by simp)
  intro fs
  induction fs with
  | nil => intro m hm; exact hm
  | cons f fs ih =>
    intro m hm
    rw [List.foldl_cons]
    by_cases h0 : f.name == "_0"
    · simp only [h0, if_true]
      exact ih m hm
    · simp only [h0, if_false]
      exact ih _ (mapAssign_keys_nodup _ _ _ hm)

/-- At most one entry of a map with pairwise-distinct keys has any given key. -/
theorem nodup_keys_countP_le_one (m : List (String × String)) (n : String)
    (h : (m.map Prod.fst).Nodup) : m.countP (fun kv => kv.1 == n) ≤ 1 := by
  induction m with
  | nil => simp
  | cons kv r ih =>
    rw [List.map_cons, List.nodup_cons] at h
    rw [List.countP_cons]
    by_cases hk : kv.1 == n
    · have hk' : kv.1 = n := by simpa using hk
      have hzero : r.countP (fun kv => kv.1 == n) = 0 := by
        rw [List.countP_eq_zero]
        intro kv' hkv'
        have : kv'.1 ≠ n := by
          intro he
          exact h.1 (hk' ▸ he ▸ List.mem_map_of_mem Prod.fst hkv')
        simpa using this
      simp [hk, hzero]
    · simp [hk, ih h.2]

/-! ### Matching-loop lemmas -/

theorem matchNamesLoop_map_fst (bs : List TBranchData) (m : List (String × String)) :
    ((matchNamesLoop bs m).1).map Prod.fst = bs.map (fun b => b.name) := by
  induction bs generalizing m with
  | nil => rfl
  | cons b bs ih =>
    rw [matchNamesLoop]
    cases hl : lookupKey b.name m with
    | some v => simp [ih]
    | none => simp [ih]

theorem matchNamesLoop_length (bs : List TBranchData) (m : List (String × String)) :
    (matchNamesLoop bs m).1.length = bs.length := by
  have h := congrArg List.length (matchNamesLoop_map_fst bs m)
  simpa using h

theorem matchTypesLoop_map_fst (bs : List TBranchData) (m : List (String × String)) :
    ((matchTypesLoop bs m).1).map Prod.fst = bs.map (fun b => b.name) := by
  induction bs generalizing m with
  | nil => rfl
  | cons b bs ih =>
    rw [matchTypesLoop]
    cases hl : lookupKey b.name m with
    | some v => simp [ih]
    | none => simp [ih]

theorem matchTypesLoop_length (bs : List TBranchData) (m : List (String × String)) :
    (matchTypesLoop bs m).1.length = bs.length := by
  have h := congrArg List.length (matchTypesLoop_map_fst bs m)
  simpa using h

/-- Master counting bound for the name-matching phase: the number of emitted
pairs whose RNTuple side is n plus the number of leftover map entries keyed n
never exceeds the number of map entries keyed n (for maps whose value equals
the key, as the names map has). -/
theorem matchNamesLoop_count (n : String) (hn : n ≠ "No match")
    (bs : List TBranchData) (m : List (String × String))
    (hm : ∀ kv ∈ m, kv.2 = kv.1) :
    (matchNamesLoop bs m).1.countP (fun p => p.2 == n) +
      (matchNamesLoop bs m).2.countP (fun kv => kv.1 == n) ≤
    m.countP (fun kv => kv.1 == n) := by
  induction bs generalizing m with
  | nil => simp [matchNamesLoop]
  | cons b bs ih =>
    rw [matchNamesLoop]
    cases hl : lookupKey b.name m with
    | some v =>
      have hv : v = b.name := by
        have hmem := lookupKey_mem _ _ _ hl
        simpa using hm _ hmem
      have hm' : ∀ kv ∈ eraseKey b.name m, kv.2 = kv.1 :=
        fun kv hkv => hm kv (eraseKey_subset _ _ _ hkv)
      have hih := ih (eraseKey b.name m) hm'
      rw [List.countP_cons]
      by_cases hbn : b.name = n
      · subst hbn
        have h1 : (((b.name, v) : String × String).2 == b.name) = true := by simp [hv]
        have h2 := eraseKey_countP_self b.name m v hl
        simp only [h1, if_true]
        omega
      · have h1 : (((b.name, v) : String × String).2 == n) = false := by simp [hv, hbn]
        have h2 := eraseKey_countP_ne b.name n hbn m
        simp only [h1, Bool.false_eq_true, if_false]
        omega
    | none =>
      have hih := ih m hm
      rw [List.countP_cons]
      have h1 : ((((b.name, "No match")) : String × String).2 == n) = false := by
        simp [Ne.symm hn]
      simp only [h1, Bool.false_eq_true, if_false]
      omega

/-- Master counting bound for the type-matching phase: the number of emitted
triples whose first component is n and whose RNTuple-type slot is a real type
(not the "No match" marker) plus the number of leftover map entries keyed n
never exceeds the number of map entries keyed n (for maps none of whose
values is the literal marker string). -/
theorem matchTypesLoop_count (n : String)
    (bs : List TBranchData) (m : List (String × String))
    (hm : ∀ kv ∈ m, kv.2 ≠ "No match") :
    (matchTypesLoop bs m).1.countP (fun tr => tr.1 == n && tr.2.2 != "No match") +
      (matchTypesLoop bs m).2.countP (fun kv => kv.1 == n) ≤
    m.countP (fun kv => kv.1 == n) := by
  induction bs generalizing m with
  | nil => simp [matchTypesLoop]
  | cons b bs ih =>
    rw [matchTypesLoop]
    cases hl : lookupKey b.name m with
    | some ty =>
      have hty : ty ≠ "No match" := hm _ (lookupKey_mem _ _ _ hl)
      have hm' : ∀ kv ∈ eraseKey b.name m, kv.2 ≠ "No match" :=
        fun kv hkv => hm kv (eraseKey_subset _ _ _ hkv)
      have hih := ih (eraseKey b.name m) hm'
      rw [List.countP_cons]
      by_cases hbn : b.name = n
      · subst hbn
        have h1 : (((b.name, b.typeName, ty) : String × String × String).1 == b.name
            && ((b.name, b.typeName, ty) : String × String × String).2.2 != "No match")
            = true := by simp [hty]
        have h2 := eraseKey_countP_self b.name m ty hl
        simp only [h1, if_true]
        omega
      · have h1 : (((b.name, b.typeName, ty) : String × String × String).1 == n
            && ((b.name, b.typeName, ty) : String × String × String).2.2 != "No match")
            = false := by
          simp [hbn]
        have h2 := eraseKey_countP_ne b.name n hbn m
        simp only [h1, Bool.false_eq_true, if_false]
        omega
    | none =>
      have hih := ih m hm
      rw [List.countP_cons]
      have h1 : (((b.name, b.typeName, "No match") : String × String × String).1 == n
          && ((b.name, b.typeName, "No match") : String × String × String).2.2 != "No match")
          = false := by simp
      simp only [h1, Bool.false_eq_true, if_false]
      omega

/-- The leftover map of the type-matching phase only contains entries of the
original map (phase 1 only ever erases). -/
theorem matchTypesLoop_rem_subset (bs : List TBranchData) (m : List (String × String))
    (kv : String × String) (h : kv ∈ (matchTypesLoop bs m).2) : kv ∈ m := by
  induction bs generalizing m with
  | nil => simpa [matchTypesLoop] using h
  | cons b bs ih =>
    rw [matchTypesLoop] at h
    cases hl : lookupKey b.name m with
    | some ty =>
      rw [hl] at h
      exact eraseKey_subset _ _ _ (ih _ h)
    | none =>
      rw [hl] at h
      exact ih _ h

/-- C4 (counterexample): with no TTree branches and two RNTuple user fields a
then b, the leftover loop iterates a std::unordered_map, which guarantees no
order.  Reversal is a legitimate traversal (it permutes the entries), and
under it CompareFieldNames emits the unmatched pairs as b before a —
not in the RNTuple catalog (declaration) order the claim asserts. -/
theorem c4_counterexample :
    (List.reverse [(("a" : String), ("a" : String)), ("b", "b")]).Perm
      [("a", "a"), ("b", "b")] ∧
    CompareFieldNames List.reverse c4T c4R = [("No match", "b"), ("No match", "a")] ∧
    CompareFieldNames (fun l => l) c4T c4R = [("No match", "a"), ("No match", "b")] ∧
    CompareFieldNames List.reverse c4T c4R ≠ CompareFieldNames (fun l => l) c4T c4R :=
  ⟨by decide, by decide, by decide, by decide⟩

/-- C4 (amended): CompareFieldNames first emits exactly one pair per TTree
branch, in TTree declaration order; after those, every remaining pair is an
unmatched ("No match", fieldName) pair, and the emitted leftover names are a
permutation of the unmatched RNTuple names — in the unordered_map's
unspecified traversal order, not necessarily the RNTuple catalog order. -/
theorem c4_output_order (iter : List (String × String) → List (String × String))
    (hiter : ∀ l, (iter l).Perm l) (t : TTreeData) (r : RNTupleData) :
    ((CompareFieldNames iter t r).take t.branches.length).map Prod.fst
        = t.branches.map (fun b => b.name) ∧
    ((CompareFieldNames iter t r).drop t.branches.length).map Prod.fst
        = List.replicate ((CompareFieldNames iter t r).length - t.branches.length)
            "No match" ∧
    (((CompareFieldNames iter t r).drop t.branches.length).map Prod.snd).Perm
        ((matchNamesLoop t.branches (buildMapL (fun f => f.name) r.fields.dropLast)).2.map
          Prod.fst) := by
  have hout : CompareFieldNames iter t r
      = (matchNamesLoop t.branches (buildMapL (fun f => f.name) r.fields.dropLast)).1 ++
        (iter (matchNamesLoop t.branches (buildMapL (fun f => f.name) r.fields.dropLast)).2).map
          (fun kv => ("No match", kv.1)) := rfl
  have hlen : (matchNamesLoop t.branches
      (buildMapL (fun f => f.name) r.fields.dropLast)).1.length = t.branches.length :=
    matchNamesLoop_length _ _
  refine ⟨?_, ?_, ?_⟩
  · rw [hout, ← hlen, List.take_left]
    exact matchNamesLoop_map_fst _ _
  · rw [hout, ← hlen, List.drop_left, List.map_map, List.length_append]
    have harith : (matchNamesLoop t.branches
          (buildMapL (fun f => f.name) r.fields.dropLast)).1.length +
        ((iter (matchNamesLoop t.branches
          (buildMapL (fun f => f.name) r.fields.dropLast)).2).map
            (fun kv => ("No match", kv.1))).length -
        (matchNamesLoop t.branches
          (buildMapL (fun f => f.name) r.fields.dropLast)).1.length =
        ((iter (matchNamesLoop t.branches
          (buildMapL (fun f => f.name) r.fields.dropLast)).2).map
            (fun kv => (("No match" : String), kv.1))).length := by omega
    rw [harith, List.length_map]
    exact List.map_const' _ "No match"
  · rw [hout, ← hlen, List.drop_left, List.map_map]
    simpa [Function.comp] using
      (hiter (matchNamesLoop t.branches
        (buildMapL (fun f => f.name) r.fields.dropLast)).2).map Prod.fst

/-- C4 witness: the amended theorem applied to the concrete data c4T, c4R with
the reversing traversal. -/
theorem c4_output_order_witness :
    ((CompareFieldNames List.reverse c4T c4R).take c4T.branches.length).map Prod.fst
        = c4T.branches.map (fun b => b.name) ∧
    ((CompareFieldNames List.reverse c4T c4R).drop c4T.branches.length).map Prod.fst
        = List.replicate ((CompareFieldNames List.reverse c4T c4R).length -
            c4T.branches.length) "No match" ∧
    (((CompareFieldNames List.reverse c4T c4R).drop c4T.branches.length).map Prod.snd).Perm
        ((matchNamesLoop c4T.branches
          (buildMapL (fun f => f.name) c4R.fields.dropLast)).2.map Prod.fst) :=
  c4_output_order List.reverse (fun l => List.reverse_perm l) c4T c4R

/-- C7: in the lists returned by CompareFieldNames and CompareFieldTypes,
every RNTuple field name n is consumed into at most one pair: at most one
emitted pair carries n on its RNTuple side (second slot for names; the first
slot together with a real, non-marker type in the third slot for types), no
matter which traversal orders the two leftover loops use.  Matching is 1:1 —
no RNTuple field is matched to two TTree branches, nor both matched and
reported as unmatched. -/
theorem c7_matching_one_to_one
    (iter₁ iter₂ : List (String × String) → List (String × String))
    (t : TTreeData) (r : RNTupleData) (n : String)
    (h₁ : ∀ l, (iter₁ l).Perm l) (h₂ : ∀ l, (iter₂ l).Perm l)
    (hn : n ≠ "No match")
    (hty : ∀ f ∈ r.fields, f.typeName ≠ "No match") :
    (CompareFieldNames iter₁ t r).countP (fun p => p.2 == n) ≤ 1 ∧
    (CompareFieldTypes iter₂ t r).countP
        (fun tr => tr.1 == n && tr.2.2 != "No match") ≤ 1 := by
  constructor
  · have hm : ∀ kv ∈ buildMapL (fun f => f.name) r.fields.dropLast, kv.2 = kv.1 := by
      intro kv hkv
      obtain ⟨f, _, hkv'⟩ := buildMapL_mem _ _ _ hkv
      rw [hkv']
    have hcount := matchNamesLoop_count n hn t.branches
      (buildMapL (fun f => f.name) r.fields.dropLast) hm
    have hone := nodup_keys_countP_le_one _ n
      (buildMapL_keys_nodup (fun f => f.name) r.fields.dropLast)
    have hout : CompareFieldNames iter₁ t r
        = (matchNamesLoop t.branches (buildMapL (fun f => f.name) r.fields.dropLast)).1 ++
          (iter₁ (matchNamesLoop t.branches
            (buildMapL (fun f => f.name) r.fields.dropLast)).2).map
            (fun kv => ("No match", kv.1)) := rfl
    have hleft : List.countP (fun p => p.2 == n)
        ((iter₁ (matchNamesLoop t.branches
          (buildMapL (fun f => f.name) r.fields.dropLast)).2).map
          (fun kv => ("No match", kv.1)))
        = List.countP (fun kv => kv.1 == n)
          (iter₁ (matchNamesLoop t.branches
            (buildMapL (fun f => f.name) r.fields.dropLast)).2) := by
      rw [List.countP_map]; rfl
    have hperm := (h₁ (matchNamesLoop t.branches
      (buildMapL (fun f => f.name) r.fields.dropLast)).2).countP_eq
      (fun kv : String × String => kv.1 == n)
    rw [hout, List.countP_append, hleft]
    omega
  · have hm : ∀ kv ∈ buildMapL (fun f => f.typeName) r.fields.dropLast,
        kv.2 ≠ "No match" := by
      intro kv hkv
      obtain ⟨f, hf, hkv'⟩ := buildMapL_mem _ _ _ hkv
      rw [hkv']
      exact hty f ((List.dropLast_sublist r.fields).subset hf)
    have hcount := matchTypesLoop_count n t.branches
      (buildMapL (fun f => f.typeName) r.fields.dropLast) hm
    have hone := nodup_keys_countP_le_one _ n
      (buildMapL_keys_nodup (fun f => f.typeName) r.fields.dropLast)
    have hout : CompareFieldTypes iter₂ t r
        = (matchTypesLoop t.branches (buildMapL (fun f => f.typeName) r.fields.dropLast)).1 ++
          (iter₂ (matchTypesLoop t.branches
            (buildMapL (fun f => f.typeName) r.fields.dropLast)).2).map
            (fun kv => (kv.1, "No match", kv.2)) := rfl
    have hleft : List.countP (fun tr => tr.1 == n && tr.2.2 != "No match")
        ((iter₂ (matchTypesLoop t.branches
          (buildMapL (fun f => f.typeName) r.fields.dropLast)).2).map
          (fun kv => (kv.1, "No match", kv.2)))
        = List.countP (fun kv => kv.1 == n && kv.2 != "No match")
          (iter₂ (matchTypesLoop t.branches
            (buildMapL (fun f => f.typeName) r.fields.dropLast)).2) := by
      rw [List.countP_map]; rfl
    have hcong : List.countP (fun kv => kv.1 == n && kv.2 != "No match")
          (iter₂ (matchTypesLoop t.branches
            (buildMapL (fun f => f.typeName) r.fields.dropLast)).2)
        = List.countP (fun kv => kv.1 == n)
          (iter₂ (matchTypesLoop t.branches
            (buildMapL (fun f => f.typeName) r.fields.dropLast)).2) := by
      apply List.countP_congr
      intro kv hkv
      have hkv' := (h₂ _).subset hkv
      have hv := hm kv (matchTypesLoop_rem_subset _ _ _ hkv')
      simp [hv]
    have hperm := (h₂ (matchTypesLoop t.branches
      (buildMapL (fun f => f.typeName) r.fields.dropLast)).2).countP_eq
      (fun kv : String × String => kv.1 == n)
    rw [hout, List.countP_append, hleft, hcong]
    omega

/-! ### Claims C9 and C10 about the Read functions -/

theorem readIntLoop_eq (l : List RFieldData) :
    readIntLoop l = (l.filter fun f => hasSub "int" f.typeName).flatMap (fun f => f.scalars) := by
  induction l with
  | nil => rfl
  | cons f fs ih =>
    by_cases h : hasSub "int" f.typeName
    · simp [readIntLoop, List.filter_cons, h, ih]
    · simp [readIntLoop, List.filter_cons, h, ih]

theorem readFloatLoop_eq (l : List RFieldData) :
    readFloatLoop l
      = (l.filter fun f => f.typeName == "float").flatMap (fun f => f.scalars) := by
  induction l with
  | nil => rfl
  | cons f fs ih =>
    by_cases h : f.typeName = "float"
    · simp [readFloatLoop, List.filter_cons, h, ih]
    · have h' : (f.typeName == "float") = false := by simpa using h
      simp [readFloatLoop, List.filter_cons, h', ih]

theorem readDoubleLoop_eq (l : List RFieldData) :
    readDoubleLoop l
      = (l.filter fun f => f.typeName == "double").flatMap (fun f => f.scalars) := by
  induction l with
  | nil => rfl
  | cons f fs ih =>
    by_cases h : f.typeName = "double"
    · simp [readDoubleLoop, List.filter_cons, h, ih]
    · have h' : (f.typeName == "double") = false := by simpa using h
      simp [readDoubleLoop, List.filter_cons, h', ih]

theorem readBoolLoop_eq (l : List RFieldData) :
    readBoolLoop l
      = (l.filter fun f => f.typeName == "bool").flatMap (fun f => f.scalars) := by
  induction l with
  | nil => rfl
  | cons f fs ih =>
    by_cases h : f.typeName = "bool"
    · simp [readBoolLoop, List.filter_cons, h, ih]
    · have h' : (f.typeName == "bool") = false := by simpa using h
      simp [readBoolLoop, List.filter_cons, h', ih]

/-- C9: ReadIntFromRNTuple reads (the per-entry values of) every non-final
field whose type string merely CONTAINS "int" — so std::uint32_t and
std::int64_t fields are also swept in — whereas ReadFloatFromRNTuple,
ReadDoubleFromRNTuple and ReadBoolFromRNTuple select a field only when its
type string EQUALS "float" / "double" / "bool" exactly. -/
theorem c9_scalar_read_selection (r : RNTupleData) :
    ReadIntFromRNTuple r
      = (r.fields.dropLast.filter fun f => hasSub "int" f.typeName).flatMap
          (fun f => f.scalars) ∧
    ReadFloatFromRNTuple r
      = (r.fields.dropLast.filter fun f => f.typeName == "float").flatMap
          (fun f => f.scalars) ∧
    ReadDoubleFromRNTuple r
      = (r.fields.dropLast.filter fun f => f.typeName == "double").flatMap
          (fun f => f.scalars) ∧
    ReadBoolFromRNTuple r
      = (r.fields.dropLast.filter fun f => f.typeName == "bool").flatMap
          (fun f => f.scalars) ∧
    hasSub "int" "std::uint32_t" = true ∧
    hasSub "int" "std::int64_t" = true ∧
    (("std::uint32_t" : String) == "int") = false ∧
    hasSub "int" "int" = true :=
  ⟨readIntLoop_eq _, readFloatLoop_eq _, readDoubleLoop_eq _, readBoolLoop_eq _,
    by decide, by decide, by decide, by decide⟩

/-- C10: all the descriptor loops of CompareFieldNames, CompareFieldTypes and
the scalar and vector Read functions run over indices 0 .. NFields-2 only, so
the field enumerated LAST never influences their result: swapping it for any
other field (of any name and type) leaves every one of these outputs
unchanged. -/
theorem c10_last_field_never_examined (fs : List RFieldData) (a b : RFieldData)
    (iter₁ iter₂ : List (String × String) → List (String × String)) (t : TTreeData) :
    CompareFieldNames iter₁ t ⟨fs ++ [a]⟩ = CompareFieldNames iter₁ t ⟨fs ++ [b]⟩ ∧
    CompareFieldTypes iter₂ t ⟨fs ++ [a]⟩ = CompareFieldTypes iter₂ t ⟨fs ++ [b]⟩ ∧
    ReadIntFromRNTuple ⟨fs ++ [a]⟩ = ReadIntFromRNTuple ⟨fs ++ [b]⟩ ∧
    ReadFloatFromRNTuple ⟨fs ++ [a]⟩ = ReadFloatFromRNTuple ⟨fs ++ [b]⟩ ∧
    ReadDoubleFromRNTuple ⟨fs ++ [a]⟩ = ReadDoubleFromRNTuple ⟨fs ++ [b]⟩ ∧
    ReadBoolFromRNTuple ⟨fs ++ [a]⟩ = ReadBoolFromRNTuple ⟨fs ++ [b]⟩ ∧
    ReadIntVectorFromRNTuple ⟨fs ++ [a]⟩ = ReadIntVectorFromRNTuple ⟨fs ++ [b]⟩ ∧
    ReadFloatVectorFromRNTuple ⟨fs ++ [a]⟩ = ReadFloatVectorFromRNTuple ⟨fs ++ [b]⟩ ∧
    ReadDoubleVectorFromRNTuple ⟨fs ++ [a]⟩ = ReadDoubleVectorFromRNTuple ⟨fs ++ [b]⟩ ∧
    ReadBoolVectorFromRNTuple ⟨fs ++ [a]⟩ = ReadBoolVectorFromRNTuple ⟨fs ++ [b]⟩ := by
  have ha : (RNTupleData.mk (fs ++ [a])).fields.dropLast = fs := by simp
  have hb : (RNTupleData.mk (fs ++ [b])).fields.dropLast = fs := by simp
  refine ⟨?_, ?_, ?_, ?_, ?_, ?_, ?_, ?_, ?_, ?_⟩
  · simp only [CompareFieldNames, ha, hb]
  · simp only [CompareFieldTypes, ha, hb]
  · simp only [ReadIntFromRNTuple, ha, hb]
  · simp only [ReadFloatFromRNTuple, ha, hb]
  · simp only [ReadDoubleFromRNTuple, ha, hb]
  · simp only [ReadBoolFromRNTuple, ha, hb]
  · simp only [ReadIntVectorFromRNTuple, ha, hb]
  · simp only [ReadFloatVectorFromRNTuple, ha, hb]
  · simp only [ReadDoubleVectorFromRNTuple, ha, hb]
  · simp only [ReadBoolVectorFromRNTuple, ha, hb]

/-- C3 (counterexample): for TTree int data 0..10 and RNTuple int data 0..20
the two sides build histograms over DIFFERENT ranges (0,10,100) and
(0,20,100): the compared statistics are not computed with a jointly derived
binning; only the chi-square path derives the joint (0,20,100). -/
theorem c3_counterexample :
    HistTTreeIntBinning [0, 10] = some (0, 10, 100) ∧
    HistRNTupleIntBinning [0, 20] = some (0, 20, 100) ∧
    IntHistChiSquareBinning [0, 10] [0, 20] = some (0, 20, 100) ∧
    HistTTreeIntBinning [0, 10] ≠ HistRNTupleIntBinning [0, 20] ∧
    HistTTreeIntBinning [0, 10] ≠ IntHistChiSquareBinning [0, 10] [0, 20] := by
  refine ⟨by decide, by decide, by decide, by decide, by decide⟩

/-- C3 (amended): each side's int histogram binning is (own min, own max, 100
bins), computed independently from that side's data alone; the two sides'
binnings coincide exactly when the two data sets happen to share min and max.
Only IntHist_ChiSquareComparison derives a joint binning from the combined
range of both sources.  (The bool histograms use the fixed binning (0,2,2) on
both sides.) -/
theorem c3_binning_per_side (tV rV : List ℤ) (hT : tV ≠ []) (hR : rV ≠ []) :
    HistTTreeIntBinning tV = some (lminD tV, lmaxD tV, 100) ∧
    HistRNTupleIntBinning rV = some (lminD rV, lmaxD rV, 100) ∧
    IntHistChiSquareBinning tV rV
      = some (min (lminD tV) (lminD rV), max (lmaxD tV) (lmaxD rV), 100) ∧
    (HistTTreeIntBinning tV = HistRNTupleIntBinning rV ↔
      (lminD tV = lminD rV ∧ lmaxD tV = lmaxD rV)) ∧
    HistTTreeBoolBinning = HistRNTupleBoolBinning := by
  cases tV with
  | nil => cases hT rfl
  | cons x xs =>
    cases rV with
    | nil => cases hR rfl
    | cons y ys =>
      refine ⟨rfl, rfl, rfl, ?_, rfl⟩
      simp [HistTTreeIntBinning, HistRNTupleIntBinning, lminD, lmaxD, Prod.ext_iff]

/-- C3 witness: the amended theorem applied at the concrete data of the
counterexample. -/
theorem c3_binning_per_side_witness :
    HistTTreeIntBinning [0, 10] = some (lminD [0, 10], lmaxD [0, 10], 100) ∧
    HistRNTupleIntBinning [0, 20] = some (lminD [0, 20], lmaxD [0, 20], 100) ∧
    IntHistChiSquareBinning [0, 10] [0, 20]
      = some (min (lminD [0, 10]) (lminD [0, 20]),
          max (lmaxD [0, 10]) (lmaxD [0, 20]), 100) ∧
    (HistTTreeIntBinning [0, 10] = HistRNTupleIntBinning [0, 20] ↔
      (lminD [0, 10] = lminD [0, 20] ∧ lmaxD [0, 10] = lmaxD [0, 20])) ∧
    HistTTreeBoolBinning = HistRNTupleBoolBinning :=
  c3_binning_per_side [0, 10] [0, 20] (by decide) (by decide)

/-- C8: for each of the four scalar buckets (int, float, double, bool), an
empty value sequence yields exactly the triple (0, 0, 0) — count 0, mean 0,
spread 0, never NaN — on the TTree side and on the RNTuple side alike,
whatever the other three data sets are. -/
theorem c8_empty_stats (a b c d : List ℚ) :
    (HistTTree [] b c d)[0]? = some (0, 0, 0) ∧
    (HistTTree a [] c d)[1]? = some (0, 0, 0) ∧
    (HistTTree a b [] d)[2]? = some (0, 0, 0) ∧
    (HistTTree a b c [])[3]? = some (0, 0, 0) ∧
    (HistRNTuple [] b c d)[0]? = some (0, 0, 0) ∧
    (HistRNTuple a [] c d)[1]? = some (0, 0, 0) ∧
    (HistRNTuple a b [] d)[2]? = some (0, 0, 0) ∧
    (HistRNTuple a b c [])[3]? = some (0, 0, 0) :=
  ⟨rfl, rfl, rfl, rfl, rfl, rfl, rfl, rfl⟩

/-! ### Lemmas about the type classification -/

theorem mappedType_cases (s : String) :
    mappedType s = "int" ∨ mappedType s = "float" ∨ mappedType s = "double" ∨
    mappedType s = "bool" ∨ mappedType s = "vector<int>" ∨
    mappedType s = "vector<float>" ∨ mappedType s = "vector<double>" ∨
    mappedType s = "vector<bool>" ∨ mappedType s = "Missing" := by
  unfold mappedType
  split_ifs <;> simp

theorem mappedType_ne_missing_cases (s : String) (h : mappedType s ≠ "Missing") :
    mappedType s = "int" ∨ mappedType s = "float" ∨ mappedType s = "double" ∨
    mappedType s = "bool" ∨ mappedType s = "vector<int>" ∨
    mappedType s = "vector<float>" ∨ mappedType s = "vector<double>" ∨
    mappedType s = "vector<bool>" := by
  unfold mappedType at h ⊢
  split_ifs at h ⊢ <;> simp_all

theorem near_cond_val (tm rm : String)
    (htm : tm = "int" ∨ tm = "float" ∨ tm = "double" ∨ tm = "bool" ∨
      tm = "vector<int>" ∨ tm = "vector<float>" ∨ tm = "vector<double>" ∨
      tm = "vector<bool>")
    (hrm : rm = "int" ∨ rm = "float" ∨ rm = "double" ∨ rm = "bool" ∨
      rm = "vector<int>" ∨ rm = "vector<float>" ∨ rm = "vector<double>" ∨
      rm = "vector<bool>") :
    (yellowMap tm == rm || tm == yellowMap tm)
      = ((tm == "float" && rm == "double") || (tm == "double" && rm == "float")
        || (tm == "vector<float>" && rm == "vector<double>")
        || (tm == "vector<double>" && rm == "vector<float>")) := by
  rcases htm with rfl | rfl | rfl | rfl | rfl | rfl | rfl | rfl <;>
    rcases hrm with rfl | rfl | rfl | rfl | rfl | rfl | rfl | rfl <;> rfl

theorem classifyStep_not_missing (tt rt : String)
    (h1 : mappedType tt ≠ "Missing") (h2 : mappedType rt ≠ "Missing") :
    classifyStep false tt rt = (specClassifyPair tt rt, false) := by
  have hb1 : (mappedType tt == "Missing") = false := by simpa using h1
  have hb2 : (mappedType rt == "Missing") = false := by simpa using h2
  have htm8 := mappedType_ne_missing_cases tt h1
  have hrm8 := mappedType_ne_missing_cases rt h2
  by_cases heq : mappedType tt = mappedType rt
  · simp [classifyStep, specClassifyPair, hb1, hb2, heq]
  · have hne : (mappedType tt == mappedType rt) = false := by simpa using heq
    have hnear := near_cond_val _ _ htm8 hrm8
    simp [classifyStep, specClassifyPair, hb1, hb2, hne, hnear, bne]

theorem classifyLoop_false_eq (l : List (String × String × String))
    (h1 : ∀ tr ∈ l, mappedType tr.2.1 ≠ "Missing" ∧ mappedType tr.2.2 ≠ "Missing") :
    classifyLoop false l = l.map (fun tr => specClassifyPair tr.2.1 tr.2.2) := by
  induction l with
  | nil => rfl
  | cons tr rest ih =>
    have h := h1 tr (List.mem_cons_self _ _)
    have hstep := classifyStep_not_missing tr.2.1 tr.2.2 h.1 h.2
    rw [classifyLoop, hstep, List.map_cons]
    exact congrArg _ (ih fun tr' htr' => h1 tr' (List.mem_cons_of_mem _ htr'))

theorem classifyStep_snd (s : Bool) (tt rt : String) :
    (classifyStep s tt rt).2
      = (s || (mappedType tt == "Missing") || (mappedType rt == "Missing")) := by
  unfold classifyStep
  dsimp only
  split_ifs <;> rfl

theorem classifyStep_fst_of_sticky (tt rt : String) :
    (classifyStep true tt rt).1
      = if mappedType tt == "Missing" || mappedType rt == "Missing"
        then PairFlag.missingFlag else PairFlag.noFlag := by
  unfold classifyStep
  dsimp only
  by_cases h : (mappedType tt == "Missing" || mappedType rt == "Missing") = true
  · simp [h]
  · simp [h]

theorem stickyAfter_true (l : List (String × String × String)) :
    stickyAfter true l = true := by
  induction l with
  | nil => rfl
  | cons tr rest ih =>
    rw [stickyAfter, classifyStep_snd]
    simpa using ih

theorem stickyAfter_of_missing (l : List (String × String × String))
    (h : ∃ tr ∈ l, mappedType tr.2.1 = "Missing" ∨ mappedType tr.2.2 = "Missing")
    (s : Bool) : stickyAfter s l = true := by
  induction l generalizing s with
  | nil => simp at h
  | cons tr rest ih =>
    obtain ⟨tr', htr', hmiss⟩ := h
    rcases List.mem_cons.mp htr' with heq | hmem
    · subst heq
      rw [stickyAfter, classifyStep_snd]
      rcases hmiss with hm | hm
      · rw [hm]
        simpa using stickyAfter_true rest
      · rw [hm]
        simpa using stickyAfter_true rest
    · exact ih ⟨tr', hmem, hmiss⟩ _

theorem classifyLoop_sticky_true (l : List (String × String × String)) :
    classifyLoop true l
      = l.map (fun tr =>
          if mappedType tr.2.1 == "Missing" || mappedType tr.2.2 == "Missing"
          then PairFlag.missingFlag else PairFlag.noFlag) := by
  induction l with
  | nil => rfl
  | cons tr rest ih =>
    rw [classifyLoop, classifyStep_fst_of_sticky, List.map_cons]
    refine congrArg _ ?_
    have hsnd : (classifyStep true tr.2.1 tr.2.2).2 = true := by
      rw [classifyStep_snd]; simp
    rw [hsnd, ih]

theorem classifyLoop_append (l₁ l₂ : List (String × String × String)) (s : Bool) :
    classifyLoop s (l₁ ++ l₂)
      = classifyLoop s l₁ ++ classifyLoop (stickyAfter s l₁) l₂ := by
  induction l₁ generalizing s with
  | nil => rfl
  | cons tr rest ih =>
    rw [List.cons_append, classifyLoop, classifyLoop, stickyAfter, ih, List.cons_append]

theorem classifyLoop_length (s : Bool) (l : List (String × String × String)) :
    (classifyLoop s l).length = l.length := by
  induction l generalizing s with
  | nil => rfl
  | cons tr rest ih => rw [classifyLoop, List.length_cons, List.length_cons, ih]

/-- C5 (counterexample): the pair b = (Int_t, Float_t) should be classified
Mismatch by the claim's per-pair rule, but because the PRECEDING pair a has an
unmappable TTree type (Weird_t) the sticky missingType flag is already set and
the code leaves b unflagged — the classification of a pair depends on the
pairs before it. -/
theorem c5_counterexample :
    PrintFieldTypeClasses [("a", "Weird_t", "Int_t"), ("b", "Int_t", "Float_t")]
      = [PairFlag.missingFlag, PairFlag.noFlag] ∧
    ([("a", "Weird_t", "Int_t"), ("b", "Int_t", "Float_t")].map
        fun tr => specClassifyPair tr.2.1 tr.2.2)
      = [PairFlag.missingFlag, PairFlag.mismatchFlag] ∧
    PrintFieldTypeClasses [("a", "Weird_t", "Int_t"), ("b", "Int_t", "Float_t")]
      ≠ [("a", "Weird_t", "Int_t"), ("b", "Int_t", "Float_t")].map
          (fun tr => specClassifyPair tr.2.1 tr.2.2) :=
  ⟨by decide, by decide, by decide⟩

/-- C5 (amended): the printed per-pair flags follow the claimed independent
rule (Missing / Exact / NearMatch on float-vs-double / Mismatch) as long as
every pair of the list maps on both sides; but once any pair of a prefix has
an unmappable side, every pair after that prefix is only ever flagged Missing
(if itself unmappable) or left unflagged — NearMatch/Mismatch are no longer
reported, because the sticky missingType flag of PrintFieldTypeComparison is
never reset. -/
theorem c5_sticky_classification (l l₁ l₂ : List (String × String × String))
    (h1 : ∀ tr ∈ l, mappedType tr.2.1 ≠ "Missing" ∧ mappedType tr.2.2 ≠ "Missing")
    (h2 : ∃ tr ∈ l₁, mappedType tr.2.1 = "Missing" ∨ mappedType tr.2.2 = "Missing") :
    PrintFieldTypeClasses l = l.map (fun tr => specClassifyPair tr.2.1 tr.2.2) ∧
    (PrintFieldTypeClasses (l₁ ++ l₂)).drop l₁.length
      = l₂.map (fun tr =>
          if mappedType tr.2.1 == "Missing" || mappedType tr.2.2 == "Missing"
          then PairFlag.missingFlag else PairFlag.noFlag) := by
  constructor
  · exact classifyLoop_false_eq l h1
  · rw [PrintFieldTypeClasses, classifyLoop_append l₁ l₂ false,
      stickyAfter_of_missing l₁ h2 false]
    have hlen := classifyLoop_length false l₁
    rw [← hlen, List.drop_left]
    exact classifyLoop_sticky_true l₂

/-- C5 witness: the amended theorem applied to a list with a NearMatch and a
Mismatch pair (both sides mappable) and to a Missing-then-Mismatch split. -/
theorem c5_sticky_classification_witness :
    PrintFieldTypeClasses [("a", "Float_t", "double"), ("b", "Int_t", "float")]
      = [("a", "Float_t", "double"), ("b", "Int_t", "float")].map
          (fun tr => specClassifyPair tr.2.1 tr.2.2) ∧
    (PrintFieldTypeClasses ([("m", "Weird_t", "Int_t")] ++ [("b", "Int_t", "Float_t")])).drop
        ([("m", "Weird_t", "Int_t")] : List (String × String × String)).length
      = [("b", "Int_t", "Float_t")].map (fun tr =>
          if mappedType tr.2.1 == "Missing" || mappedType tr.2.2 == "Missing"
          then PairFlag.missingFlag else PairFlag.noFlag) :=
  c5_sticky_classification [("a", "Float_t", "double"), ("b", "Int_t", "float")]
    [("m", "Weird_t", "Int_t")] [("b", "Int_t", "Float_t")] (by decide) (by decide)

/-- C6 (counterexample): with verbose off and histogram statistics that
disagree (TTree int count 1 versus RNTuple int count 2), HistogramDrawStat
prints nothing — the detected discrepancy is NOT always shown, contradicting
the claim for the histogram-statistics section. -/
theorem c6_counterexample :
    HistogramDrawStat false [(1, 0, 0), (0, 0, 0), (0, 0, 0), (0, 0, 0)]
        [(2, 0, 0), (0, 0, 0), (0, 0, 0), (0, 0, 0)] = false ∧
    ([(1, 0, 0), (0, 0, 0), (0, 0, 0), (0, 0, 0)] : List (ℕ × ℚ × ℚ))
      ≠ [(2, 0, 0), (0, 0, 0), (0, 0, 0), (0, 0, 0)] :=
  ⟨rfl, by decide⟩

/-- C6 (amended): entry-count, field-count and field-name discrepancies are
always printed regardless of the verbose flag, and a field-type section with a
nonzero scanned diffLevel is always printed; but the histogram-statistics
section is printed exactly when verbose is on — a histogram discrepancy is
silent without -v (and conversely the section always prints with -v even with
no discrepancy). -/
theorem c6_print_policy (v : Bool) (e f : ℤ × ℤ) (ns : List (String × String))
    (ts : List (String × String × String)) (dT dR : List (ℕ × ℚ × ℚ))
    (he : e.1 ≠ e.2) (hf : f.1 ≠ f.2)
    (hns : ns.all (fun p => p.1 == p.2) = false)
    (hts : (scanFieldTypes ts).1 ≠ 0) :
    PrintEntryComparison v e = true ∧
    PrintFieldComparison v f = true ∧
    PrintFieldNameComparison v ns = true ∧
    PrintFieldTypeComparison v ts = true ∧
    HistogramDrawStat true dT dR = true ∧
    HistogramDrawStat false dT dR = false := by
  have h1 : (e.1 == e.2) = false := by simpa using he
  have h2 : (f.1 == f.2) = false := by simpa using hf
  have h4 : ((scanFieldTypes ts).1 == 0) = false := by simpa using hts
  refine ⟨?_, ?_, ?_, ?_, rfl, rfl⟩
  · simp [PrintEntryComparison, h1]
  · simp [PrintFieldComparison, h2]
  · simp [PrintFieldNameComparison, hns]
  · simp [PrintFieldTypeComparison, h4]

/-- C6 witness: the amended theorem at concrete discrepant data with verbose
off. -/
theorem c6_print_policy_witness :
    PrintEntryComparison false (0, 1) = true ∧
    PrintFieldComparison false (0, 1) = true ∧
    PrintFieldNameComparison false [("a", "b")] = true ∧
    PrintFieldTypeComparison false [("t", "Int_t", "Float_t")] = true ∧
    HistogramDrawStat true [] [] = true ∧
    HistogramDrawStat false [] [] = false :=
  c6_print_policy false (0, 1) (0, 1) [("a", "b")] [("t", "Int_t", "Float_t")] [] []
    (by decide) (by decide) (by decide) (by decide)

/-- C7 witness: the 1:1 consumption bound applied at a concrete TTree with one
branch "value" and a concrete RNTuple with user fields "value" and "x" (plus a
final field, which the loops skip), with the identity traversal and
n = "value". -/
theorem c7_matching_one_to_one_witness :
    (CompareFieldNames (fun l => l) ⟨[⟨"value", "Int_t", [], []⟩]⟩
        ⟨[⟨"value", "std::int32_t", [], []⟩, ⟨"x", "float", [], []⟩,
          ⟨"zzz", "other", [], []⟩]⟩).countP (fun p => p.2 == "value") ≤ 1 ∧
    (CompareFieldTypes (fun l => l) ⟨[⟨"value", "Int_t", [], []⟩]⟩
        ⟨[⟨"value", "std::int32_t", [], []⟩, ⟨"x", "float", [], []⟩,
          ⟨"zzz", "other", [], []⟩]⟩).countP
        (fun tr => tr.1 == "value" && tr.2.2 != "No match") ≤ 1 :=
  c7_matching_one_to_one (fun l => l) (fun l => l) ⟨[⟨"value", "Int_t", [], []⟩]⟩
    ⟨[⟨"value", "std::int32_t", [], []⟩, ⟨"x", "float", [], []⟩, ⟨"zzz", "other", [], []⟩]⟩
    "value" (fun l => List.Perm.refl l) (fun l => List.Perm.refl l)
    (by decide) (by decide)

end Checker

